import Mathlib

/-!
Verification of the I/O-emulation dispatch layer of the ACRN hypervisor
(`io_emul.h` together with the board description header `board.h`).

The repository ships the interface headers: the port-I/O index enumeration
(`PIC_MASTER_PIO_IDX` .. `EMUL_PIO_IDX_MAX`), the registration API
(`register_pio_emulation_handler`, `register_mmio_emulation_handler`), the
dispatch entry point (`emulate_io`) and the completion entry points
(`emulate_mmio_post`, `dm_emulate_mmio_post`, `emulate_io_post`).  The
function bodies live outside the shipped headers, so every operation below
is modelled from the specification's contracts; the numeric PIO index
constants are taken verbatim from `io_emul.h`.
-/

namespace AcrnIoEmul

/-- Direction of a guest I/O access, as decoded by the trap layer. -/
inductive IoDirection where
  | READ
  | WRITE
deriving DecidableEq, Repr

/-- Completion state of a vCPU's Request Object.  Modelled from the spec:
the state machine is `NONE -[submit]-> PENDING -[external completion]->
COMPLETE -[post-processing consumes]-> NONE`. -/
inductive ReqState where
  | NONE
  | PENDING
  | COMPLETE
deriving DecidableEq, Repr

/-- Modelled from the spec: numeric request-type code for a port I/O access
(the header classifies requests by `io_request.type`; the concrete numeric
values of the type codes are not in the shipped headers). -/
def REQ_PORTIO_CODE : Nat := 0

/-- Modelled from the spec: numeric request-type code for an MMIO access.
Any code other than `REQ_PORTIO_CODE` and `REQ_MMIO_CODE` is unrecognized. -/
def REQ_MMIO_CODE : Nat := 1

/-- Standard errno value for an I/O error; `emulate_io` returns `-EIO` when
the access spans multiple devices (header `@retval -EIO`). -/
def EIO : Int := 5

/-- Standard errno value for an invalid argument; returned negated by
`emulate_io` on an invalid request type and by
`register_mmio_emulation_handler` on invalid registration arguments. -/
def EINVAL : Int := 22

/-- Modelled from the spec: the non-error pending-status code named
`IOREQ_PENDING` in the header (`@retval IOREQ_PENDING The I/O request is
delivered to VHM`); its numeric value is not in the shipped headers, only
that it is distinct from `0` and not an error (not negative). -/
def IOREQ_PENDING : Int := 1

/- Emulated port IO indices, verbatim from `io_emul.h`. -/

/-- Fixed PIO index of the master PIC, from `io_emul.h`. -/
def PIC_MASTER_PIO_IDX : Nat := 0

/-- Fixed PIO index of the slave PIC, from `io_emul.h`. -/
def PIC_SLAVE_PIO_IDX : Nat := PIC_MASTER_PIO_IDX + 1

/-- Fixed PIO index of the PIC edge/level control register, from `io_emul.h`. -/
def PIC_ELC_PIO_IDX : Nat := PIC_SLAVE_PIO_IDX + 1

/-- Fixed PIO index of the PCI configuration address port, from `io_emul.h`. -/
def PCI_CFGADDR_PIO_IDX : Nat := PIC_ELC_PIO_IDX + 1

/-- Fixed PIO index of the PCI configuration data port, from `io_emul.h`. -/
def PCI_CFGDATA_PIO_IDX : Nat := PCI_CFGADDR_PIO_IDX + 1

/-- Fixed PIO index of the UART, from `io_emul.h`. -/
def UART_PIO_IDX : Nat := PCI_CFGDATA_PIO_IDX + 1

/-- Fixed PIO index of the PM1A event register, from `io_emul.h`. -/
def PM1A_EVT_PIO_IDX : Nat := UART_PIO_IDX + 1

/-- Fixed PIO index of the PM1A control register, from `io_emul.h`. -/
def PM1A_CNT_PIO_IDX : Nat := PM1A_EVT_PIO_IDX + 1

/-- Fixed PIO index of the PM1B event register, from `io_emul.h`. -/
def PM1B_EVT_PIO_IDX : Nat := PM1A_CNT_PIO_IDX + 1

/-- Fixed PIO index of the PM1B control register, from `io_emul.h`. -/
def PM1B_CNT_PIO_IDX : Nat := PM1B_EVT_PIO_IDX + 1

/-- Fixed PIO index of the RTC, from `io_emul.h`. -/
def RTC_PIO_IDX : Nat := PM1B_CNT_PIO_IDX + 1

/-- Upper bound of the fixed PIO index space, from `io_emul.h`. -/
def EMUL_PIO_IDX_MAX : Nat := RTC_PIO_IDX + 1

/-- Modelled from the spec: an MMIO handler (C type `hv_mem_io_handler_t`)
is invoked with the request's address, size, direction and current data and
yields a status (`0` on success, negative on a handler-reported error)
together with the data it writes back for reads. -/
def MmioHandler : Type := Nat → Nat → IoDirection → Nat → Int × Nat

/-- Modelled from the spec: one registered MMIO emulation range
`{ start, end (exclusive), handler, private_data }` of a VM's registry. -/
structure MmioRange where
  start : Nat
  end_ : Nat
  read_write : MmioHandler
  handler_private_data : Nat

/-- Port I/O range, from the header's `struct vm_io_range` (base and length). -/
structure VmIoRange where
  base : Nat
  len : Nat
deriving DecidableEq, Repr

/-- Modelled from the spec: a registered PIO handler slot binds a port range
to a read handler (C type `io_read_fn_t`, yields status and value) and a
write handler (C type `io_write_fn_t`, consumes the value, yields status). -/
structure PioEntry where
  base : Nat
  len : Nat
  io_read : Nat → Nat → Int × Nat
  io_write : Nat → Nat → Nat → Int

/-- Modelled from the spec: the per-VM state the dispatch layer consults —
the MMIO range registry, the fixed-index PIO handler table (of length
`EMUL_PIO_IDX_MAX`, each slot optionally bound), and the launched flag that
freezes MMIO registration. -/
structure AcrnVm where
  mmio_ranges : List MmioRange
  pio_handlers : List (Option PioEntry)
  launched : Bool

/-- Modelled from the spec: one guest I/O request
`{ type, address, size, direction, data, state }` (C `struct io_request`,
with the shared-channel completion state folded in). -/
structure IoRequest where
  reqType : Nat
  addr : Nat
  size : Nat
  direction : IoDirection
  data : Nat
  state : ReqState
deriving DecidableEq, Repr

/-- Modelled from the spec: a virtual CPU — its VM, its single shared-channel
request slot (`vcpu->req` in the header), and the general-purpose register
targeted by the decoded instruction, the destination of read copy-back. -/
structure AcrnVcpu where
  vm : AcrnVm
  req : IoRequest
  reg : Nat

/-- Identity of a registered handler, used to record which handlers a
dispatch invoked: a fixed PIO slot index or an MMIO registry index. -/
inductive HandlerId where
  | pio (i : Nat)
  | mmio (i : Nat)
deriving DecidableEq, Repr

/-- Outcome of one internal dispatch attempt: a handler was invoked and
reported a status, the access spans registered ranges, or nothing matched. -/
inductive DispatchResult where
  | handled (status : Int) (io_req : IoRequest) (h : HandlerId)
  | span_err
  | unhandled

/-- Result of `emulate_io`: the returned status, the updated vCPU (request
slot), the updated request (data written back for reads), and the list of
handlers invoked during the dispatch, in order. -/
structure EmulateOutcome where
  status : Int
  vcpu : AcrnVcpu
  io_req : IoRequest
  invoked : List HandlerId

/-- Full containment of the access `[a, a+s)` in the MMIO range `r`. -/
def mmio_contains (r : MmioRange) (a s : Nat) : Bool :=
  decide (r.start ≤ a) && decide (a + s ≤ r.end_)

/-- Overlap (non-empty intersection) of the access `[a, a+s)` with `r`. -/
def mmio_overlaps (r : MmioRange) (a s : Nat) : Bool :=
  decide (a < r.end_) && decide (r.start < a + s)

/-- Full containment of the access `[p, p+s)` in a PIO slot's port range. -/
def pio_contains (e : PioEntry) (p s : Nat) : Bool :=
  decide (e.base ≤ p) && decide (p + s ≤ e.base + e.len)

/-- Overlap of the access `[p, p+s)` with a PIO slot's port range. -/
def pio_overlaps (e : PioEntry) (p s : Nat) : Bool :=
  decide (p < e.base + e.len) && decide (e.base < p + s)

/-- Overlap check lifted to an optional PIO slot; an unbound slot matches
nothing. -/
def pio_slot_overlaps (o : Option PioEntry) (p s : Nat) : Bool :=
  match o with
  | some e => pio_overlaps e p s
  | none => false

/-- Modelled from the spec: interval search of the VM's MMIO registry —
first range (with its registry index) fully containing the access. -/
def find_containing (rs : List MmioRange) (a s : Nat) : Option (Nat × MmioRange) :=
  match rs with
  | [] => none
  | r :: rest =>
    if mmio_contains r a s then some (0, r)
    else (find_containing rest a s).map (fun p => (p.1 + 1, p.2))

/-- Modelled from the spec: fixed-index lookup of the VM's PIO handler
table — first bound slot (with its index) whose range contains the access. -/
def find_pio_containing (slots : List (Option PioEntry)) (p s : Nat) :
    Option (Nat × PioEntry) :=
  match slots with
  | [] => none
  | none :: rest => (find_pio_containing rest p s).map (fun q => (q.1 + 1, q.2))
  | some e :: rest =>
    if pio_contains e p s then some (0, e)
    else (find_pio_containing rest p s).map (fun q => (q.1 + 1, q.2))

/-- Modelled from the spec: hypervisor-internal MMIO dispatch — invoke the
handler of the unique containing range (its write to `data` kept for reads),
report a span error when the access crosses registered ranges without being
contained in one, otherwise report the access unhandled. -/
def hv_emulate_mmio (vm : AcrnVm) (io_req : IoRequest) : DispatchResult :=
  match find_containing vm.mmio_ranges io_req.addr io_req.size with
  | some (i, r) =>
    let res := r.read_write io_req.addr io_req.size io_req.direction io_req.data
    DispatchResult.handled res.1
      { io_req with data := if io_req.direction = IoDirection.READ then res.2 else io_req.data }
      (HandlerId.mmio i)
  | none =>
    if vm.mmio_ranges.any (fun r => mmio_overlaps r io_req.addr io_req.size) then
      DispatchResult.span_err
    else
      DispatchResult.unhandled

/-- Modelled from the spec: hypervisor-internal PIO dispatch over the fixed
index table — a read invokes the slot's read handler and keeps the value it
writes to `data`, a write invokes the write handler with the request's data;
boundary-crossing accesses are a span error, unmatched ones unhandled. -/
def hv_emulate_pio (vm : AcrnVm) (io_req : IoRequest) : DispatchResult :=
  match find_pio_containing vm.pio_handlers io_req.addr io_req.size with
  | some (i, e) =>
    if io_req.direction = IoDirection.READ then
      let res := e.io_read io_req.addr io_req.size
      DispatchResult.handled res.1 { io_req with data := res.2 } (HandlerId.pio i)
    else
      DispatchResult.handled (e.io_write io_req.addr io_req.size io_req.data) io_req
        (HandlerId.pio i)
  | none =>
    if vm.pio_handlers.any (fun o => pio_slot_overlaps o io_req.addr io_req.size) then
      DispatchResult.span_err
    else
      DispatchResult.unhandled

/-- Modelled from the spec: delivery of an unmatched request to the external
device model — populate the vCPU's shared-channel request slot from the
request and mark it `PENDING`. -/
def dm_deliver_request (vcpu : AcrnVcpu) (io_req : IoRequest) : AcrnVcpu :=
  { vcpu with req := { io_req with state := ReqState.PENDING } }

/-- Modelled from the spec: `emulate_io(vcpu, io_req)` — classify by
`io_req.type` (unrecognized type fails with `-EINVAL`), dispatch to the
internal PIO or MMIO handler search; a matched handler runs synchronously
and its status is returned (`0` on success), a boundary-crossing access
fails with `-EIO`, and an unmatched access is delivered to the device model
with the slot marked `PENDING` and `IOREQ_PENDING` returned. -/
def emulate_io (vcpu : AcrnVcpu) (io_req : IoRequest) : EmulateOutcome :=
  let dr :=
    if io_req.reqType = REQ_PORTIO_CODE then some (hv_emulate_pio vcpu.vm io_req)
    else if io_req.reqType = REQ_MMIO_CODE then some (hv_emulate_mmio vcpu.vm io_req)
    else none
  match dr with
  | none => ⟨-EINVAL, vcpu, io_req, []⟩
  | some (DispatchResult.handled st r h) => ⟨st, vcpu, r, [h]⟩
  | some DispatchResult.span_err => ⟨- EIO, vcpu, io_req, []⟩
  | some DispatchResult.unhandled =>
    ⟨IOREQ_PENDING, dm_deliver_request vcpu io_req, io_req, []⟩

/-- Modelled from the spec: `emulate_mmio_post(vcpu, io_req)` — for a read,
copy the completed data into the vCPU's general-purpose register implied by
the decoded instruction; for a write, no copy-back.  The request parameter
is `const` in the header and is not modified. -/
def emulate_mmio_post (vcpu : AcrnVcpu) (io_req : IoRequest) : AcrnVcpu :=
  if io_req.direction = IoDirection.READ then { vcpu with reg := io_req.data } else vcpu

/-- Modelled from the spec: `dm_emulate_mmio_post(vcpu)` — MMIO post-work on
the vCPU's own shared-channel request after external completion. -/
def dm_emulate_mmio_post (vcpu : AcrnVcpu) : AcrnVcpu :=
  emulate_mmio_post vcpu vcpu.req

/-- Modelled from the spec: PIO-specific completion path — for a read, the
completed value is copied into the destination register; no copy for writes. -/
def emulate_pio_post (vcpu : AcrnVcpu) (io_req : IoRequest) : AcrnVcpu :=
  if io_req.direction = IoDirection.READ then { vcpu with reg := io_req.data } else vcpu

/-- Modelled from the spec: `emulate_io_post(vcpu)` — general post-work for
a completed request: dispatch by request type to the MMIO or PIO completion
path, then consume the request, resetting the slot to `NONE`.  On a slot not
in `COMPLETE` state (already consumed) it is a no-op. -/
def emulate_io_post (vcpu : AcrnVcpu) : AcrnVcpu :=
  if vcpu.req.state = ReqState.COMPLETE then
    let v :=
      if vcpu.req.reqType = REQ_MMIO_CODE then dm_emulate_mmio_post vcpu
      else if vcpu.req.reqType = REQ_PORTIO_CODE then emulate_pio_post vcpu vcpu.req
      else vcpu
    { v with req := { v.req with state := ReqState.NONE } }
  else vcpu

/-- Modelled from the spec: the external device model completes a `PENDING`
request, writing the result data and moving the slot to `COMPLETE`; a slot
not in `PENDING` state is left untouched. -/
def dm_complete_request (vcpu : AcrnVcpu) (data : Nat) : AcrnVcpu :=
  if vcpu.req.state = ReqState.PENDING then
    { vcpu with req := { vcpu.req with data := data, state := ReqState.COMPLETE } }
  else vcpu

/-- Modelled from the spec: `register_mmio_emulation_handler` — fails with
`-EINVAL` when the handler is `NULL`, the range is degenerate
(`end <= start`) or the VM has been launched; otherwise appends the range to
the VM's MMIO registry and returns `0`. -/
def register_mmio_emulation_handler (vm : AcrnVm) (read_write : Option MmioHandler)
    (start end_ : Nat) (handler_private_data : Nat) : Int × AcrnVm :=
  match read_write with
  | none => (-EINVAL, vm)
  | some f =>
    if end_ ≤ start ∨ vm.launched = true then (-EINVAL, vm)
    else
      (0, { vm with mmio_ranges :=
              vm.mmio_ranges ++
                [{ start := start, end_ := end_, read_write := f,
                   handler_private_data := handler_private_data }] })

/-- Modelled from the spec: `register_pio_emulation_handler` — binds the
read/write handler pair and range to the given fixed PIO index of the VM;
the precondition `pio_idx < EMUL_PIO_IDX_MAX` is the caller's obligation. -/
def register_pio_emulation_handler (vm : AcrnVm) (pio_idx : Nat) (range : VmIoRange)
    (io_read_fn_ptr : Nat → Nat → Int × Nat) (io_write_fn_ptr : Nat → Nat → Nat → Int) :
    AcrnVm :=
  { vm with pio_handlers :=
      (vm.pio_handlers.set pio_idx
        (some { base := range.base, len := range.len,
                io_read := io_read_fn_ptr, io_write := io_write_fn_ptr })) }

/-- Events acting on a vCPU's Request Object: submission through
`emulate_io`, external completion, and post-processing consumption. -/
inductive ReqEvent where
  | submit (io_req : IoRequest)
  | complete (data : Nat)
  | post

/-- One step of the request life cycle: apply an event to a vCPU. -/
def req_step (vcpu : AcrnVcpu) : ReqEvent → AcrnVcpu
  | ReqEvent.submit io_req => (emulate_io vcpu io_req).vcpu
  | ReqEvent.complete d => dm_complete_request vcpu d
  | ReqEvent.post => emulate_io_post vcpu

/-- Contract precondition of an event, from the spec: a vCPU must not
re-enter `emulate_io` before its prior request has been consumed. -/
def event_contract (vcpu : AcrnVcpu) : ReqEvent → Prop
  | ReqEvent.submit _ => vcpu.req.state = ReqState.NONE
  | ReqEvent.complete _ => True
  | ReqEvent.post => True

/-- Allowed request-state transitions: stutter, or one edge of the single
path `NONE → PENDING → COMPLETE → NONE`. -/
def path_step (a b : ReqState) : Prop :=
  a = b ∨ (a = ReqState.NONE ∧ b = ReqState.PENDING) ∨
    (a = ReqState.PENDING ∧ b = ReqState.COMPLETE) ∨
    (a = ReqState.COMPLETE ∧ b = ReqState.NONE)

/-- Number of `PENDING` requests a vCPU holds; the shared channel has one
slot per vCPU (`vcpu->req` in the header). -/
def pending_count (vcpu : AcrnVcpu) : Nat :=
  if vcpu.req.state = ReqState.PENDING then 1 else 0

/-- Interval disjointness of two MMIO ranges. -/
def range_disjointB (a b : MmioRange) : Bool :=
  decide (a.end_ ≤ b.start) || decide (b.end_ ≤ a.start)

/-- The non-overlap invariant of a VM's MMIO registry: the registered ranges
are pairwise disjoint. -/
def registry_nonoverlapping (rs : List MmioRange) : Prop :=
  rs.Pairwise (fun a b => range_disjointB a b = true)

/-! Helper lemmas about the registry searches. -/

/-- A containing range also overlaps the access whenever the access has
positive size. -/
theorem mmio_contains_overlaps (r : MmioRange) (a s : Nat) (hs : 0 < s)
    (hc : mmio_contains r a s = true) : mmio_overlaps r a s = true := by
  simp only [mmio_contains, Bool.and_eq_true, decide_eq_true_eq] at hc
  simp only [mmio_overlaps, Bool.and_eq_true, decide_eq_true_eq]
  omega

/-- A containing PIO slot also overlaps the access whenever the access has
positive size. -/
theorem pio_contains_overlaps (e : PioEntry) (p s : Nat) (hs : 0 < s)
    (hc : pio_contains e p s = true) : pio_overlaps e p s = true := by
  simp only [pio_contains, Bool.and_eq_true, decide_eq_true_eq] at hc
  simp only [pio_overlaps, Bool.and_eq_true, decide_eq_true_eq]
  omega

/-- When exactly the range at index `i` contains the access, the interval
search returns that index and range. -/
theorem find_containing_of_unique (rs : List MmioRange) (a s : Nat) (i : Nat)
    (r : MmioRange) (hi : rs[i]? = some r) (hc : mmio_contains r a s = true)
    (hu : ∀ j r', rs[j]? = some r' → j ≠ i → mmio_contains r' a s = false) :
    find_containing rs a s = some (i, r) := by
  induction rs generalizing i with
  | nil => simp at hi
  | cons x rest ih =>
    cases i with
    | zero =>
      rw [List.getElem?_cons_zero] at hi
      obtain rfl : x = r := by injection hi
      simp [find_containing, hc]
    | succ n =>
      rw [List.getElem?_cons_succ] at hi
      have hx : mmio_contains x a s = false := hu 0 x (by simp) (by simp)
      have hrec := ih n hi
        (fun j r' hj hjn => hu (j + 1) r' (by simpa using hj) (by omega))
      simp [find_containing, hx, hrec]

/-- When no registered range contains the access, the interval search fails. -/
theorem find_containing_of_none (rs : List MmioRange) (a s : Nat)
    (h : ∀ r' ∈ rs, mmio_contains r' a s = false) :
    find_containing rs a s = none := by
  induction rs with
  | nil => rfl
  | cons x rest ih =>
    have hx : mmio_contains x a s = false := h x (by simp)
    have hrec := ih (fun r' hr => h r' (by simp [hr]))
    simp [find_containing, hx, hrec]

/-- When exactly the bound slot at index `i` contains the access, the
fixed-index search returns that index and entry. -/
theorem find_pio_containing_of_unique (slots : List (Option PioEntry)) (p s : Nat)
    (i : Nat) (e : PioEntry) (hi : slots[i]? = some (some e))
    (hc : pio_contains e p s = true)
    (hu : ∀ j e', slots[j]? = some (some e') → j ≠ i → pio_contains e' p s = false) :
    find_pio_containing slots p s = some (i, e) := by
  induction slots generalizing i with
  | nil => simp at hi
  | cons x rest ih =>
    cases i with
    | zero =>
      rw [List.getElem?_cons_zero] at hi
      obtain rfl : x = some e := by injection hi
      simp [find_pio_containing, hc]
    | succ n =>
      rw [List.getElem?_cons_succ] at hi
      have hrec := ih n hi
        (fun j e' hj hjn => hu (j + 1) e' (by simpa using hj) (by omega))
      cases x with
      | none => simp [find_pio_containing, hrec]
      | some y =>
        have hy : pio_contains y p s = false := hu 0 y (by simp) (by simp)
        simp [find_pio_containing, hy, hrec]

/-- When no bound slot contains the access, the fixed-index search fails. -/
theorem find_pio_containing_of_none (slots : List (Option PioEntry)) (p s : Nat)
    (h : ∀ e' : PioEntry, some e' ∈ slots → pio_contains e' p s = false) :
    find_pio_containing slots p s = none := by
  induction slots with
  | nil => rfl
  | cons x rest ih =>
    have hrec := ih (fun e' he => h e' (by simp [he]))
    cases x with
    | none => simp [find_pio_containing, hrec]
    | some y =>
      have hy : pio_contains y p s = false := h y (by simp)
      simp [find_pio_containing, hy, hrec]

/-! Shape lemmas: the value of `emulate_io` in each dispatch scenario. -/

/-- On an unrecognized request type, `emulate_io` returns `-EINVAL` and
changes nothing. -/
theorem emulate_io_invalid_type (vcpu : AcrnVcpu) (io_req : IoRequest)
    (h1 : io_req.reqType ≠ REQ_PORTIO_CODE) (h2 : io_req.reqType ≠ REQ_MMIO_CODE) :
    emulate_io vcpu io_req = ⟨-EINVAL, vcpu, io_req, []⟩ := by
  simp [emulate_io, h1, h2]

/-- On an MMIO request whose interval search finds the range `r` at index
`i`, `emulate_io` invokes `r`'s handler once and returns its status, the
handler's output data replacing the request data for reads. -/
theorem emulate_io_mmio_handled (vcpu : AcrnVcpu) (io_req : IoRequest) (i : Nat)
    (r : MmioRange) (hty : io_req.reqType = REQ_MMIO_CODE)
    (hfind : find_containing vcpu.vm.mmio_ranges io_req.addr io_req.size = some (i, r)) :
    emulate_io vcpu io_req =
      ⟨(r.read_write io_req.addr io_req.size io_req.direction io_req.data).1, vcpu,
       { io_req with data :=
           if io_req.direction = IoDirection.READ then
             (r.read_write io_req.addr io_req.size io_req.direction io_req.data).2
           else io_req.data },
       [HandlerId.mmio i]⟩ := by
  have hty0 : io_req.reqType ≠ REQ_PORTIO_CODE := by
    simp [hty, REQ_MMIO_CODE, REQ_PORTIO_CODE]
  simp [emulate_io, hty0, hty, hv_emulate_mmio, hfind, REQ_MMIO_CODE, REQ_PORTIO_CODE]

/-- On an MMIO request that the interval search misses but that overlaps
registered ranges, `emulate_io` fails with `-EIO`, invoking nothing. -/
theorem emulate_io_mmio_span (vcpu : AcrnVcpu) (io_req : IoRequest)
    (hty : io_req.reqType = REQ_MMIO_CODE)
    (hfind : find_containing vcpu.vm.mmio_ranges io_req.addr io_req.size = none)
    (hov : vcpu.vm.mmio_ranges.any (fun r => mmio_overlaps r io_req.addr io_req.size) = true) :
    emulate_io vcpu io_req = ⟨- EIO, vcpu, io_req, []⟩ := by
  have hty0 : io_req.reqType ≠ REQ_PORTIO_CODE := by
    simp [hty, REQ_MMIO_CODE, REQ_PORTIO_CODE]
  simp [emulate_io, hty0, hty, hv_emulate_mmio, hfind, hov, REQ_MMIO_CODE, REQ_PORTIO_CODE]

/-- On an MMIO request touching no registered range, `emulate_io` delivers
the request to the device model, marking the slot `PENDING`. -/
theorem emulate_io_mmio_pending (vcpu : AcrnVcpu) (io_req : IoRequest)
    (hty : io_req.reqType = REQ_MMIO_CODE)
    (hfind : find_containing vcpu.vm.mmio_ranges io_req.addr io_req.size = none)
    (hov : vcpu.vm.mmio_ranges.any (fun r => mmio_overlaps r io_req.addr io_req.size) = false) :
    emulate_io vcpu io_req =
      ⟨IOREQ_PENDING, dm_deliver_request vcpu io_req, io_req, []⟩ := by
  have hty0 : io_req.reqType ≠ REQ_PORTIO_CODE := by
    simp [hty, REQ_MMIO_CODE, REQ_PORTIO_CODE]
  simp [emulate_io, hty0, hty, hv_emulate_mmio, hfind, hov, REQ_MMIO_CODE, REQ_PORTIO_CODE]

/-- On a PIO read whose fixed-index search finds the slot `e` at index `i`,
`emulate_io` invokes `e`'s read handler once, returning its status and
keeping its value in the request data. -/
theorem emulate_io_pio_handled_read (vcpu : AcrnVcpu) (io_req : IoRequest) (i : Nat)
    (e : PioEntry) (hty : io_req.reqType = REQ_PORTIO_CODE)
    (hdir : io_req.direction = IoDirection.READ)
    (hfind : find_pio_containing vcpu.vm.pio_handlers io_req.addr io_req.size = some (i, e)) :
    emulate_io vcpu io_req =
      ⟨(e.io_read io_req.addr io_req.size).1, vcpu,
       { io_req with data := (e.io_read io_req.addr io_req.size).2 },
       [HandlerId.pio i]⟩ := by
  simp [emulate_io, hty, hv_emulate_pio, hfind, hdir]

/-- On a PIO write whose fixed-index search finds the slot `e` at index `i`,
`emulate_io` invokes `e`'s write handler once with the request's data. -/
theorem emulate_io_pio_handled_write (vcpu : AcrnVcpu) (io_req : IoRequest) (i : Nat)
    (e : PioEntry) (hty : io_req.reqType = REQ_PORTIO_CODE)
    (hdir : io_req.direction = IoDirection.WRITE)
    (hfind : find_pio_containing vcpu.vm.pio_handlers io_req.addr io_req.size = some (i, e)) :
    emulate_io vcpu io_req =
      ⟨e.io_write io_req.addr io_req.size io_req.data, vcpu, io_req,
       [HandlerId.pio i]⟩ := by
  have hdir' : io_req.direction ≠ IoDirection.READ := by simp [hdir]
  simp [emulate_io, hty, hv_emulate_pio, hfind, hdir']

/-- On a PIO request that the fixed-index search misses but that overlaps a
bound slot's range, `emulate_io` fails with `-EIO`, invoking nothing. -/
theorem emulate_io_pio_span (vcpu : AcrnVcpu) (io_req : IoRequest)
    (hty : io_req.reqType = REQ_PORTIO_CODE)
    (hfind : find_pio_containing vcpu.vm.pio_handlers io_req.addr io_req.size = none)
    (hov : vcpu.vm.pio_handlers.any
      (fun o => pio_slot_overlaps o io_req.addr io_req.size) = true) :
    emulate_io vcpu io_req = ⟨- EIO, vcpu, io_req, []⟩ := by
  simp [emulate_io, hty, hv_emulate_pio, hfind, hov]

/-- On a PIO request touching no bound slot's range, `emulate_io` delivers
the request to the device model, marking the slot `PENDING`. -/
theorem emulate_io_pio_pending (vcpu : AcrnVcpu) (io_req : IoRequest)
    (hty : io_req.reqType = REQ_PORTIO_CODE)
    (hfind : find_pio_containing vcpu.vm.pio_handlers io_req.addr io_req.size = none)
    (hov : vcpu.vm.pio_handlers.any
      (fun o => pio_slot_overlaps o io_req.addr io_req.size) = false) :
    emulate_io vcpu io_req =
      ⟨IOREQ_PENDING, dm_deliver_request vcpu io_req, io_req, []⟩ := by
  simp [emulate_io, hty, hv_emulate_pio, hfind, hov]

/-! Concrete fixtures used by the witnesses. -/

/-- Sample MMIO handler: succeeds and writes `0xAB` back for reads. -/
def wit_mmio_handler : MmioHandler := fun _ _ _ _ => (0, 0xAB)

/-- Sample PIO read handler: succeeds with value `0x5A`. -/
def wit_pio_read (_p _s : Nat) : Int × Nat := (0, 0x5A)

/-- Sample PIO write handler: succeeds. -/
def wit_pio_write (_p _s _v : Nat) : Int := 0

/-- Sample registered MMIO range `[0xFEC00000, 0xFEC01000)`. -/
def wit_mmio_range : MmioRange :=
  { start := 0xFEC00000, end_ := 0xFEC01000, read_write := wit_mmio_handler,
    handler_private_data := 0 }

/-- Sample PIO slot bound to the UART ports `[0x3F8, 0x400)`. -/
def wit_pio_entry : PioEntry :=
  { base := 0x3F8, len := 8, io_read := wit_pio_read, io_write := wit_pio_write }

/-- Sample VM: one MMIO range registered and the UART PIO index bound. -/
def wit_vm : AcrnVm :=
  { mmio_ranges := [wit_mmio_range],
    pio_handlers :=
      [none, none, none, none, none, some wit_pio_entry, none, none, none, none, none],
    launched := true }

/-- Idle request slot contents. -/
def wit_idle_req : IoRequest :=
  { reqType := REQ_MMIO_CODE, addr := 0, size := 0, direction := IoDirection.WRITE,
    data := 0, state := ReqState.NONE }

/-- Sample vCPU of `wit_vm` with an idle request slot. -/
def wit_vcpu : AcrnVcpu := { vm := wit_vm, req := wit_idle_req, reg := 0 }

/-- Sample MMIO read access: 4 bytes at `0xFEC00010`. -/
def wit_mmio_read_req : IoRequest :=
  { reqType := REQ_MMIO_CODE, addr := 0xFEC00010, size := 4,
    direction := IoDirection.READ, data := 0, state := ReqState.NONE }

/-- Sample PIO read access: 1 byte at port `0x3F8`. -/
def wit_pio_read_req : IoRequest :=
  { reqType := REQ_PORTIO_CODE, addr := 0x3F8, size := 1,
    direction := IoDirection.READ, data := 0, state := ReqState.NONE }

/-- Empty VM: no MMIO range registered, no PIO slot bound. -/
def wit_vm_empty : AcrnVm :=
  { mmio_ranges := [],
    pio_handlers :=
      [none, none, none, none, none, none, none, none, none, none, none],
    launched := false }

/-- Sample vCPU of the empty VM with an idle request slot. -/
def wit_vcpu_empty : AcrnVcpu := { vm := wit_vm_empty, req := wit_idle_req, reg := 0 }

/-- Sample unmatched PIO write access: 1 byte to port `0x3F8` (UART), no
handler registered. -/
def wit_pio_write_req : IoRequest :=
  { reqType := REQ_PORTIO_CODE, addr := 0x3F8, size := 1,
    direction := IoDirection.WRITE, data := 0x41, state := ReqState.NONE }

/-! Claims. -/

/-- C1: for every guest I/O access whose address interval is fully contained
in exactly one registered emulation range of the VM, `emulate_io` invokes
that range's handler exactly once and returns the handler's status — `0` on
success; for a read access, the value the handler writes into the request's
`data` field is the value returned to the caller.  Stated for both access
kinds: MMIO interval registry and fixed-index PIO table. -/
theorem emulate_io_contained_unique_invokes_once :
    (∀ (vcpu : AcrnVcpu) (io_req : IoRequest) (i : Nat) (r : MmioRange),
      io_req.reqType = REQ_MMIO_CODE →
      vcpu.vm.mmio_ranges[i]? = some r →
      mmio_contains r io_req.addr io_req.size = true →
      (∀ j r', vcpu.vm.mmio_ranges[j]? = some r' → j ≠ i →
        mmio_contains r' io_req.addr io_req.size = false) →
      ((emulate_io vcpu io_req).invoked = [HandlerId.mmio i] ∧
       (emulate_io vcpu io_req).status =
         (r.read_write io_req.addr io_req.size io_req.direction io_req.data).1 ∧
       ((r.read_write io_req.addr io_req.size io_req.direction io_req.data).1 = 0 →
         (emulate_io vcpu io_req).status = 0) ∧
       (io_req.direction = IoDirection.READ →
         (emulate_io vcpu io_req).io_req.data =
           (r.read_write io_req.addr io_req.size io_req.direction io_req.data).2) ∧
       (emulate_io vcpu io_req).vcpu = vcpu)) ∧
    (∀ (vcpu : AcrnVcpu) (io_req : IoRequest) (i : Nat) (e : PioEntry),
      io_req.reqType = REQ_PORTIO_CODE →
      vcpu.vm.pio_handlers[i]? = some (some e) →
      pio_contains e io_req.addr io_req.size = true →
      (∀ j e', vcpu.vm.pio_handlers[j]? = some (some e') → j ≠ i →
        pio_contains e' io_req.addr io_req.size = false) →
      ((emulate_io vcpu io_req).invoked = [HandlerId.pio i] ∧
       (io_req.direction = IoDirection.READ →
         (emulate_io vcpu io_req).status = (e.io_read io_req.addr io_req.size).1 ∧
         (emulate_io vcpu io_req).io_req.data = (e.io_read io_req.addr io_req.size).2) ∧
       (io_req.direction = IoDirection.WRITE →
         (emulate_io vcpu io_req).status =
           e.io_write io_req.addr io_req.size io_req.data) ∧
       (emulate_io vcpu io_req).vcpu = vcpu)) := by
  constructor
  · intro vcpu io_req i r hty hi hc hu
    have heq := emulate_io_mmio_handled vcpu io_req i r hty
      (find_containing_of_unique _ _ _ i r hi hc hu)
    rw [heq]
    exact ⟨rfl, rfl, fun h0 => h0, fun hdir => by simp [hdir], rfl⟩
  · intro vcpu io_req i e hty hi hc hu
    have hfind := find_pio_containing_of_unique _ _ _ i e hi hc hu
    cases hdir : io_req.direction with
    | READ =>
      rw [emulate_io_pio_handled_read vcpu io_req i e hty hdir hfind]
      refine ⟨rfl, fun _ => ⟨rfl, rfl⟩, fun hw => ?_, rfl⟩
      cases hw
    | WRITE =>
      rw [emulate_io_pio_handled_write vcpu io_req i e hty hdir hfind]
      refine ⟨rfl, fun hr => ?_, fun _ => rfl, rfl⟩
      cases hr

/-- Witness for C1: on `wit_vcpu`, a 4-byte MMIO read at `0xFEC00010`
invokes the single registered range's handler once, returns `0` and yields
the handler's data `0xAB`; a 1-byte PIO read at `0x3F8` invokes the UART
slot's handler once. -/
theorem emulate_io_contained_unique_invokes_once_witness :
    (emulate_io wit_vcpu wit_mmio_read_req).invoked = [HandlerId.mmio 0] ∧
    (emulate_io wit_vcpu wit_mmio_read_req).status = 0 ∧
    (emulate_io wit_vcpu wit_mmio_read_req).io_req.data = 0xAB ∧
    (emulate_io wit_vcpu wit_pio_read_req).invoked = [HandlerId.pio 5] ∧
    (emulate_io wit_vcpu wit_pio_read_req).io_req.data = 0x5A := by
  have hm := emulate_io_contained_unique_invokes_once.1 wit_vcpu wit_mmio_read_req 0
    wit_mmio_range rfl rfl (by decide)
    (by
      intro j r' hj hne
      cases j with
      | zero => exact absurd rfl hne
      | succ n => simp [wit_vcpu, wit_vm] at hj)
  have hp := emulate_io_contained_unique_invokes_once.2 wit_vcpu wit_pio_read_req 5
    wit_pio_entry rfl rfl (by decide)
    (by
      intro j e' hj hne
      rcases j with _|_|_|_|_|_|j
      · simp [wit_vcpu, wit_vm] at hj
      · simp [wit_vcpu, wit_vm] at hj
      · simp [wit_vcpu, wit_vm] at hj
      · simp [wit_vcpu, wit_vm] at hj
      · simp [wit_vcpu, wit_vm] at hj
      · exact absurd rfl hne
      · rcases j with _|_|_|_|_|j
        · simp [wit_vcpu, wit_vm] at hj
        · simp [wit_vcpu, wit_vm] at hj
        · simp [wit_vcpu, wit_vm] at hj
        · simp [wit_vcpu, wit_vm] at hj
        · simp [wit_vcpu, wit_vm] at hj
        · simp [wit_vcpu, wit_vm] at hj)
  refine ⟨hm.1, ?_, ?_, hp.1, ?_⟩
  · rw [hm.2.1]; rfl
  · rw [hm.2.2.2.1 rfl]; rfl
  · rw [(hp.2.1 rfl).2]; rfl

/-- C2: for every guest I/O access of positive size that matches no
registered internal handler of the VM (it touches no registered range),
`emulate_io` transitions the vCPU's Request Object from `NONE` to `PENDING`,
returns the pending-status code — which is not an error (non-negative) —
and invokes no handler.  Stated for both access kinds. -/
theorem emulate_io_unmatched_pending :
    (∀ (vcpu : AcrnVcpu) (io_req : IoRequest),
      io_req.reqType = REQ_MMIO_CODE →
      vcpu.req.state = ReqState.NONE →
      0 < io_req.size →
      (∀ r ∈ vcpu.vm.mmio_ranges, mmio_overlaps r io_req.addr io_req.size = false) →
      ((emulate_io vcpu io_req).status = IOREQ_PENDING ∧
       (0 : Int) ≤ IOREQ_PENDING ∧
       (emulate_io vcpu io_req).invoked = [] ∧
       (emulate_io vcpu io_req).vcpu.req = { io_req with state := ReqState.PENDING } ∧
       (emulate_io vcpu io_req).vcpu.req.state = ReqState.PENDING)) ∧
    (∀ (vcpu : AcrnVcpu) (io_req : IoRequest),
      io_req.reqType = REQ_PORTIO_CODE →
      vcpu.req.state = ReqState.NONE →
      0 < io_req.size →
      (∀ e : PioEntry, some e ∈ vcpu.vm.pio_handlers →
        pio_overlaps e io_req.addr io_req.size = false) →
      ((emulate_io vcpu io_req).status = IOREQ_PENDING ∧
       (0 : Int) ≤ IOREQ_PENDING ∧
       (emulate_io vcpu io_req).invoked = [] ∧
       (emulate_io vcpu io_req).vcpu.req = { io_req with state := ReqState.PENDING } ∧
       (emulate_io vcpu io_req).vcpu.req.state = ReqState.PENDING)) := by
  constructor
  · intro vcpu io_req hty hst hs hno
    have hcont : ∀ r ∈ vcpu.vm.mmio_ranges,
        mmio_contains r io_req.addr io_req.size = false := by
      intro r hr
      cases hcc : mmio_contains r io_req.addr io_req.size with
      | false => rfl
      | true =>
        have hov := mmio_contains_overlaps r io_req.addr io_req.size hs hcc
        rw [hno r hr] at hov
        cases hov
    have hany : (vcpu.vm.mmio_ranges.any
        (fun r => mmio_overlaps r io_req.addr io_req.size)) = false := by
      rw [List.any_eq_false]
      intro r hr
      simp [hno r hr]
    rw [emulate_io_mmio_pending vcpu io_req hty (find_containing_of_none _ _ _ hcont) hany]
    exact ⟨rfl, by decide, rfl, rfl, rfl⟩
  · intro vcpu io_req hty hst hs hno
    have hcont : ∀ e : PioEntry, some e ∈ vcpu.vm.pio_handlers →
        pio_contains e io_req.addr io_req.size = false := by
      intro e he
      cases hcc : pio_contains e io_req.addr io_req.size with
      | false => rfl
      | true =>
        have hov := pio_contains_overlaps e io_req.addr io_req.size hs hcc
        rw [hno e he] at hov
        cases hov
    have hany : (vcpu.vm.pio_handlers.any
        (fun o => pio_slot_overlaps o io_req.addr io_req.size)) = false := by
      rw [List.any_eq_false]
      intro o ho
      cases o with
      | none => simp [pio_slot_overlaps]
      | some e => simp [pio_slot_overlaps, hno e ho]
    rw [emulate_io_pio_pending vcpu io_req hty
      (find_pio_containing_of_none _ _ _ hcont) hany]
    exact ⟨rfl, by decide, rfl, rfl, rfl⟩

/-- Witness for C2: on the empty VM, a 4-byte MMIO read at `0x1000` and a
1-byte UART port write at `0x3F8` both go `PENDING` with no handler
invoked, the request slot moving from `NONE` to `PENDING`. -/
theorem emulate_io_unmatched_pending_witness :
    (emulate_io wit_vcpu_empty
      { reqType := REQ_MMIO_CODE, addr := 0x1000, size := 4,
        direction := IoDirection.READ, data := 0, state := ReqState.NONE }).status =
        IOREQ_PENDING ∧
    (emulate_io wit_vcpu_empty
      { reqType := REQ_MMIO_CODE, addr := 0x1000, size := 4,
        direction := IoDirection.READ, data := 0, state := ReqState.NONE }).invoked = [] ∧
    (emulate_io wit_vcpu_empty wit_pio_write_req).status = IOREQ_PENDING ∧
    (emulate_io wit_vcpu_empty wit_pio_write_req).invoked = [] ∧
    (emulate_io wit_vcpu_empty wit_pio_write_req).vcpu.req.state = ReqState.PENDING := by
  have hm := emulate_io_unmatched_pending.1 wit_vcpu_empty
    { reqType := REQ_MMIO_CODE, addr := 0x1000, size := 4,
      direction := IoDirection.READ, data := 0, state := ReqState.NONE }
    rfl rfl (by decide) (by intro r hr; exact absurd hr (List.not_mem_nil r))
  have hp := emulate_io_unmatched_pending.2 wit_vcpu_empty wit_pio_write_req
    rfl rfl (by decide) (by intro e he; simp [wit_vcpu_empty, wit_vm_empty] at he)
  exact ⟨hm.1, hm.2.2.1, hp.1, hp.2.2.1, hp.2.2.2.2⟩

/-- Membership of an element found by position. -/
theorem mem_of_lookup {α : Type} {l : List α} {i : Nat} {a : α}
    (h : l[i]? = some a) : a ∈ l := by
  rcases List.getElem?_eq_some.mp h with ⟨hlt, rfl⟩
  exact List.getElem_mem hlt

/-- C3: for every guest I/O access of positive size that partially overlaps
two distinct registered ranges — it overlaps both but is fully contained in
no registered range — `emulate_io` returns the span error `-EIO`, invokes
no handler, and leaves the vCPU and the request unchanged.  Stated for both
access kinds. -/
theorem emulate_io_span_two_ranges_eio :
    (∀ (vcpu : AcrnVcpu) (io_req : IoRequest) (i j : Nat) (ri rj : MmioRange),
      io_req.reqType = REQ_MMIO_CODE →
      i ≠ j →
      vcpu.vm.mmio_ranges[i]? = some ri →
      vcpu.vm.mmio_ranges[j]? = some rj →
      mmio_overlaps ri io_req.addr io_req.size = true →
      mmio_overlaps rj io_req.addr io_req.size = true →
      (∀ r ∈ vcpu.vm.mmio_ranges, mmio_contains r io_req.addr io_req.size = false) →
      emulate_io vcpu io_req = ⟨- EIO, vcpu, io_req, []⟩) ∧
    (∀ (vcpu : AcrnVcpu) (io_req : IoRequest) (i j : Nat) (ei ej : PioEntry),
      io_req.reqType = REQ_PORTIO_CODE →
      i ≠ j →
      vcpu.vm.pio_handlers[i]? = some (some ei) →
      vcpu.vm.pio_handlers[j]? = some (some ej) →
      pio_overlaps ei io_req.addr io_req.size = true →
      pio_overlaps ej io_req.addr io_req.size = true →
      (∀ e : PioEntry, some e ∈ vcpu.vm.pio_handlers →
        pio_contains e io_req.addr io_req.size = false) →
      emulate_io vcpu io_req = ⟨- EIO, vcpu, io_req, []⟩) := by
  constructor
  · intro vcpu io_req i j ri rj hty hij hi hj hovi hovj hcont
    have hmem : ri ∈ vcpu.vm.mmio_ranges := mem_of_lookup hi
    have hany : (vcpu.vm.mmio_ranges.any
        (fun r => mmio_overlaps r io_req.addr io_req.size)) = true :=
      List.any_eq_true.mpr ⟨ri, hmem, hovi⟩
    exact emulate_io_mmio_span vcpu io_req hty
      (find_containing_of_none _ _ _ hcont) hany
  · intro vcpu io_req i j ei ej hty hij hi hj hovi hovj hcont
    have hmem : some ei ∈ vcpu.vm.pio_handlers := mem_of_lookup hi
    have hany : (vcpu.vm.pio_handlers.any
        (fun o => pio_slot_overlaps o io_req.addr io_req.size)) = true :=
      List.any_eq_true.mpr ⟨some ei, hmem, hovi⟩
    exact emulate_io_pio_span vcpu io_req hty
      (find_pio_containing_of_none _ _ _ hcont) hany

/-- Sample MMIO range `[0x1000, 0x2000)` for the span witness. -/
def wit_mmio_range_a : MmioRange :=
  { start := 0x1000, end_ := 0x2000, read_write := wit_mmio_handler,
    handler_private_data := 0 }

/-- Adjacent sample MMIO range `[0x2000, 0x3000)` for the span witness. -/
def wit_mmio_range_b : MmioRange :=
  { start := 0x2000, end_ := 0x3000, read_write := wit_mmio_handler,
    handler_private_data := 0 }

/-- Sample PIO slot over ports `[0x60, 0x64)` for the span witness. -/
def wit_pio_entry_a : PioEntry :=
  { base := 0x60, len := 4, io_read := wit_pio_read, io_write := wit_pio_write }

/-- Adjacent sample PIO slot over ports `[0x64, 0x68)` for the span witness. -/
def wit_pio_entry_b : PioEntry :=
  { base := 0x64, len := 4, io_read := wit_pio_read, io_write := wit_pio_write }

/-- Sample VM with two adjacent MMIO ranges and two adjacent PIO slots. -/
def wit_vm_span : AcrnVm :=
  { mmio_ranges := [wit_mmio_range_a, wit_mmio_range_b],
    pio_handlers :=
      [some wit_pio_entry_a, some wit_pio_entry_b, none, none, none, none, none,
       none, none, none, none],
    launched := true }

/-- Sample vCPU of `wit_vm_span` with an idle request slot. -/
def wit_vcpu_span : AcrnVcpu := { vm := wit_vm_span, req := wit_idle_req, reg := 0 }

/-- Sample 8-byte MMIO read at `0x1FFC`, crossing the `0x2000` boundary. -/
def wit_mmio_span_req : IoRequest :=
  { reqType := REQ_MMIO_CODE, addr := 0x1FFC, size := 8,
    direction := IoDirection.READ, data := 0, state := ReqState.NONE }

/-- Sample 4-byte PIO write at port `0x62`, crossing the `0x64` boundary. -/
def wit_pio_span_req : IoRequest :=
  { reqType := REQ_PORTIO_CODE, addr := 0x62, size := 4,
    direction := IoDirection.WRITE, data := 0, state := ReqState.NONE }

/-- Witness for C3: on `wit_vcpu_span`, the boundary-crossing MMIO read at
`0x1FFC` and PIO write at `0x62` both fail with `-EIO`, invoking nothing
and changing nothing. -/
theorem emulate_io_span_two_ranges_eio_witness :
    emulate_io wit_vcpu_span wit_mmio_span_req =
      ⟨- EIO, wit_vcpu_span, wit_mmio_span_req, []⟩ ∧
    emulate_io wit_vcpu_span wit_pio_span_req =
      ⟨- EIO, wit_vcpu_span, wit_pio_span_req, []⟩ := by
  constructor
  · exact emulate_io_span_two_ranges_eio.1 wit_vcpu_span wit_mmio_span_req 0 1
      wit_mmio_range_a wit_mmio_range_b rfl (by decide) rfl rfl (by decide) (by decide)
      (by
        intro r hr
        simp [wit_vcpu_span, wit_vm_span] at hr
        rcases hr with rfl | rfl <;> decide)
  · exact emulate_io_span_two_ranges_eio.2 wit_vcpu_span wit_pio_span_req 0 1
      wit_pio_entry_a wit_pio_entry_b rfl (by decide) rfl rfl (by decide) (by decide)
      (by
        intro e he
        simp [wit_vcpu_span, wit_vm_span] at he
        rcases he with rfl | rfl <;> decide)

/-- C4: `register_mmio_emulation_handler` returns `-EINVAL` exactly when the
handler is absent, the range is degenerate (`end <= start`) or the VM has
been launched; otherwise it returns `0` and appends the range to the VM's
registry. -/
theorem register_mmio_emulation_handler_einval_iff :
    ∀ (vm : AcrnVm) (read_write : Option MmioHandler) (start end_ priv : Nat),
      ((register_mmio_emulation_handler vm read_write start end_ priv).1 = -EINVAL ↔
        (read_write = none ∨ end_ ≤ start ∨ vm.launched = true)) ∧
      (∀ f : MmioHandler, read_write = some f → ¬ end_ ≤ start → vm.launched = false →
        ((register_mmio_emulation_handler vm read_write start end_ priv).1 = 0 ∧
         (register_mmio_emulation_handler vm read_write start end_ priv).2.mmio_ranges =
           vm.mmio_ranges ++
             [{ start := start, end_ := end_, read_write := f,
                handler_private_data := priv }])) := by
  intro vm read_write start end_ priv
  constructor
  · cases read_write with
    | none => simp [register_mmio_emulation_handler]
    | some f =>
      by_cases h : end_ ≤ start ∨ vm.launched = true
      · rw [register_mmio_emulation_handler, if_pos h]
        simpa using h
      · rw [register_mmio_emulation_handler, if_neg h]
        show ((0 : Int) = -EINVAL) ↔ _
        constructor
        · intro h0
          exact absurd h0 (by decide)
        · intro hcond
          rcases hcond with hnone | hrest
          · cases hnone
          · exact absurd hrest h
  · intro f hf hs hl
    subst hf
    have h : ¬ (end_ ≤ start ∨ vm.launched = true) := by
      intro hcond
      rcases hcond with h1 | h2
      · exact hs h1
      · rw [hl] at h2; cases h2
    rw [register_mmio_emulation_handler, if_neg h]
    exact ⟨rfl, rfl⟩

/-- Witness for C4: on the empty, unlaunched VM, registering the degenerate
range `[0x1000, 0x1000)` fails with `-EINVAL`; registering `[0x1000,
0x2000)` succeeds with `0` and appends the range; on `wit_vm`, which is
launched, any registration fails with `-EINVAL`. -/
theorem register_mmio_emulation_handler_einval_iff_witness :
    (register_mmio_emulation_handler wit_vm_empty (some wit_mmio_handler)
      0x1000 0x1000 0).1 = -EINVAL ∧
    (register_mmio_emulation_handler wit_vm_empty (some wit_mmio_handler)
      0x1000 0x2000 0).1 = 0 ∧
    (register_mmio_emulation_handler wit_vm_empty (some wit_mmio_handler)
      0x1000 0x2000 0).2.mmio_ranges =
      [{ start := 0x1000, end_ := 0x2000, read_write := wit_mmio_handler,
         handler_private_data := 0 }] ∧
    (register_mmio_emulation_handler wit_vm (some wit_mmio_handler)
      0x4000 0x5000 0).1 = -EINVAL := by
  have h1 := (register_mmio_emulation_handler_einval_iff wit_vm_empty
    (some wit_mmio_handler) 0x1000 0x1000 0).1.mpr (Or.inr (Or.inl (by decide)))
  have h2 := (register_mmio_emulation_handler_einval_iff wit_vm_empty
    (some wit_mmio_handler) 0x1000 0x2000 0).2 wit_mmio_handler rfl
    (by decide) rfl
  have h3 := (register_mmio_emulation_handler_einval_iff wit_vm
    (some wit_mmio_handler) 0x4000 0x5000 0).1.mpr (Or.inr (Or.inr rfl))
  exact ⟨h1, h2.1, by rw [h2.2]; rfl, h3⟩

/-- The vCPU returned by `emulate_io` is either unchanged or the result of
delivering the request to the device model. -/
theorem emulate_io_vcpu_cases (vcpu : AcrnVcpu) (io_req : IoRequest) :
    (emulate_io vcpu io_req).vcpu = vcpu ∨
    (emulate_io vcpu io_req).vcpu = dm_deliver_request vcpu io_req := by
  by_cases h0 : io_req.reqType = REQ_PORTIO_CODE
  · cases hd : hv_emulate_pio vcpu.vm io_req with
    | handled st r hh => left; simp [emulate_io, h0, hd]
    | span_err => left; simp [emulate_io, h0, hd]
    | unhandled => right; simp [emulate_io, h0, hd]
  · by_cases h1 : io_req.reqType = REQ_MMIO_CODE
    · cases hd : hv_emulate_mmio vcpu.vm io_req with
      | handled st r hh =>
        left; simp [emulate_io, h0, h1, hd, REQ_MMIO_CODE, REQ_PORTIO_CODE]
      | span_err =>
        left; simp [emulate_io, h0, h1, hd, REQ_MMIO_CODE, REQ_PORTIO_CODE]
      | unhandled =>
        right; simp [emulate_io, h0, h1, hd, REQ_MMIO_CODE, REQ_PORTIO_CODE]
    · left; simp [emulate_io, h0, h1]

/-- C5: under the contract (no re-submission while a request is in flight),
every event on a vCPU's Request Object moves its state along the single
path `NONE → PENDING → COMPLETE → NONE` (or leaves it in place), and after
any event — contract-respecting or not — the vCPU holds at most one
`PENDING` request, its single shared-channel slot. -/
theorem req_state_machine_single_path :
    ∀ (vcpu : AcrnVcpu) (e : ReqEvent),
      (event_contract vcpu e →
        path_step vcpu.req.state (req_step vcpu e).req.state) ∧
      pending_count (req_step vcpu e) ≤ 1 := by
  intro vcpu e
  constructor
  · intro hc
    cases e with
    | submit io_req =>
      rcases emulate_io_vcpu_cases vcpu io_req with h | h
      · rw [req_step, h]
        exact Or.inl rfl
      · rw [req_step, h]
        exact Or.inr (Or.inl ⟨hc, rfl⟩)
    | complete d =>
      rw [req_step, dm_complete_request]
      by_cases h : vcpu.req.state = ReqState.PENDING
      · rw [if_pos h]
        exact Or.inr (Or.inr (Or.inl ⟨h, rfl⟩))
      · rw [if_neg h]
        exact Or.inl rfl
    | post =>
      rw [req_step, emulate_io_post]
      by_cases h : vcpu.req.state = ReqState.COMPLETE
      · rw [if_pos h]
        exact Or.inr (Or.inr (Or.inr ⟨h, rfl⟩))
      · rw [if_neg h]
        exact Or.inl rfl
  · rw [pending_count]
    split
    · exact Nat.le_refl 1
    · exact Nat.zero_le 1

/-- Witness for C5: submitting the unmatched UART write on the idle
`wit_vcpu_empty` steps the slot along the allowed path (`NONE → PENDING`)
and leaves at most one pending request. -/
theorem req_state_machine_single_path_witness :
    path_step wit_vcpu_empty.req.state
      (req_step wit_vcpu_empty (ReqEvent.submit wit_pio_write_req)).req.state ∧
    pending_count (req_step wit_vcpu_empty (ReqEvent.submit wit_pio_write_req)) ≤ 1 :=
  ⟨(req_state_machine_single_path wit_vcpu_empty
      (ReqEvent.submit wit_pio_write_req)).1 rfl,
   (req_state_machine_single_path wit_vcpu_empty
      (ReqEvent.submit wit_pio_write_req)).2⟩

/-- VM holding the single registered range `[0x1000, 0x2000)`, not yet
launched. -/
def cex_vm1 : AcrnVm :=
  (register_mmio_emulation_handler wit_vm_empty (some wit_mmio_handler)
    0x1000 0x2000 0).2

/-- Counterexample for C6: registering `[0x1800, 0x2800)`, which overlaps
the already-registered `[0x1000, 0x2000)` of `cex_vm1`, does not fail with
`-EINVAL`: it returns `0` and leaves two overlapping ranges in the
registry — registration does not enforce the non-overlap invariant. -/
theorem register_mmio_overlap_accepted_cex :
    (register_mmio_emulation_handler cex_vm1 (some wit_mmio_handler)
      0x1800 0x2800 0).1 = 0 ∧
    (register_mmio_emulation_handler cex_vm1 (some wit_mmio_handler)
      0x1800 0x2800 0).1 ≠ -EINVAL ∧
    (register_mmio_emulation_handler cex_vm1 (some wit_mmio_handler)
      0x1800 0x2800 0).2.mmio_ranges.length = 2 ∧
    range_disjointB
      ((register_mmio_emulation_handler cex_vm1 (some wit_mmio_handler)
        0x1800 0x2800 0).2.mmio_ranges.getD 0 wit_mmio_range)
      ((register_mmio_emulation_handler cex_vm1 (some wit_mmio_handler)
        0x1800 0x2800 0).2.mmio_ranges.getD 1 wit_mmio_range) = false := by
  refine ⟨rfl, by decide, rfl, by decide⟩

/-- C6 (amended): registering a degenerate range (`end <= start`) fails
with `-EINVAL`, but registration performs no overlap check — avoiding
overlap is the caller's responsibility — and the non-overlap invariant is
preserved by every successful registration of a range disjoint from all
already-registered ones. -/
theorem register_mmio_nonoverlap_invariant :
    ∀ (vm : AcrnVm) (f : MmioHandler) (start end_ priv : Nat),
      (end_ ≤ start →
        (register_mmio_emulation_handler vm (some f) start end_ priv).1 = -EINVAL) ∧
      (registry_nonoverlapping vm.mmio_ranges →
       (∀ r ∈ vm.mmio_ranges,
         range_disjointB r { start := start, end_ := end_, read_write := f,
                             handler_private_data := priv } = true) →
       (register_mmio_emulation_handler vm (some f) start end_ priv).1 = 0 →
       registry_nonoverlapping
         (register_mmio_emulation_handler vm (some f) start end_ priv).2.mmio_ranges) := by
  intro vm f start end_ priv
  constructor
  · intro h
    rw [register_mmio_emulation_handler, if_pos (Or.inl h)]
  · intro hinv hdisj hok
    by_cases h : end_ ≤ start ∨ vm.launched = true
    · rw [register_mmio_emulation_handler, if_pos h] at hok
      have h22 : (-EINVAL : Int) = 0 := hok
      exact absurd h22 (by decide)
    · rw [register_mmio_emulation_handler, if_neg h]
      rw [registry_nonoverlapping, List.pairwise_append]
      refine ⟨hinv, List.pairwise_singleton _ _, ?_⟩
      intro a ha b hb
      rw [List.mem_singleton] at hb
      subst hb
      exact hdisj a ha

/-- Witness for C6 (amended): on `wit_vm_empty` the degenerate range
`[0x1000, 0x1000)` is rejected with `-EINVAL`; appending the disjoint
`[0x3000, 0x4000)` to `wit_vm`'s registry (launch flag cleared) keeps the
registry non-overlapping. -/
theorem register_mmio_nonoverlap_invariant_witness :
    (register_mmio_emulation_handler wit_vm_empty (some wit_mmio_handler)
      0x1000 0x1000 0).1 = -EINVAL ∧
    registry_nonoverlapping
      (register_mmio_emulation_handler cex_vm1 (some wit_mmio_handler)
        0x3000 0x4000 0).2.mmio_ranges := by
  constructor
  · exact (register_mmio_nonoverlap_invariant wit_vm_empty wit_mmio_handler
      0x1000 0x1000 0).1 (by decide)
  · exact (register_mmio_nonoverlap_invariant cex_vm1 wit_mmio_handler
      0x3000 0x4000 0).2
      (by
        rw [show cex_vm1.mmio_ranges =
          [{ start := 0x1000, end_ := 0x2000, read_write := wit_mmio_handler,
             handler_private_data := 0 }] from rfl]
        exact List.pairwise_singleton _ _)
      (by
        intro r hr
        rw [show cex_vm1.mmio_ranges =
          [{ start := 0x1000, end_ := 0x2000, read_write := wit_mmio_handler,
             handler_private_data := 0 }] from rfl] at hr
        rw [List.mem_singleton] at hr
        subst hr
        decide)
      rfl

/-- C7: `emulate_io` returns `-EINVAL` of its own exactly when the request
type is unrecognized (neither PIO nor MMIO); its outcome is always one of:
a single synchronous handler invocation whose reported status is returned
(`0` on success, negative on a handler error), the pending status with no
handler invoked, the span error `-EIO` with no handler invoked, or
`-EINVAL` for an invalid type with no handler invoked — so for a valid type
a `-EINVAL` result can only be handler-reported.  No other outcome exists. -/
theorem emulate_io_result_characterization :
    ∀ (vcpu : AcrnVcpu) (io_req : IoRequest),
      ((io_req.reqType ≠ REQ_PORTIO_CODE ∧ io_req.reqType ≠ REQ_MMIO_CODE) →
        emulate_io vcpu io_req = ⟨-EINVAL, vcpu, io_req, []⟩) ∧
      ((io_req.reqType = REQ_PORTIO_CODE ∨ io_req.reqType = REQ_MMIO_CODE) →
        (((emulate_io vcpu io_req).status = IOREQ_PENDING ∧
            (emulate_io vcpu io_req).invoked = []) ∨
         ((emulate_io vcpu io_req).status = - EIO ∧
            (emulate_io vcpu io_req).invoked = []) ∨
         (∃ h, (emulate_io vcpu io_req).invoked = [h]))) ∧
      ((io_req.reqType = REQ_PORTIO_CODE ∨ io_req.reqType = REQ_MMIO_CODE) →
        (emulate_io vcpu io_req).status = -EINVAL →
        ∃ h, (emulate_io vcpu io_req).invoked = [h]) := by
  intro vcpu io_req
  have hchar : (io_req.reqType = REQ_PORTIO_CODE ∨ io_req.reqType = REQ_MMIO_CODE) →
      (((emulate_io vcpu io_req).status = IOREQ_PENDING ∧
          (emulate_io vcpu io_req).invoked = []) ∨
       ((emulate_io vcpu io_req).status = - EIO ∧
          (emulate_io vcpu io_req).invoked = []) ∨
       (∃ h, (emulate_io vcpu io_req).invoked = [h])) := by
    intro hty
    rcases hty with h0 | h1
    · cases hd : hv_emulate_pio vcpu.vm io_req with
      | handled st r hh =>
        exact Or.inr (Or.inr ⟨hh, by simp [emulate_io, h0, hd]⟩)
      | span_err =>
        exact Or.inr (Or.inl (by simp [emulate_io, h0, hd]))
      | unhandled =>
        exact Or.inl (by simp [emulate_io, h0, hd])
    · by_cases h0 : io_req.reqType = REQ_PORTIO_CODE
      · rw [h1] at h0
        exact absurd h0 (by decide)
      · cases hd : hv_emulate_mmio vcpu.vm io_req with
        | handled st r hh =>
          exact Or.inr (Or.inr ⟨hh,
            by simp [emulate_io, h0, h1, hd, REQ_MMIO_CODE, REQ_PORTIO_CODE]⟩)
        | span_err =>
          exact Or.inr (Or.inl
            (by simp [emulate_io, h0, h1, hd, REQ_MMIO_CODE, REQ_PORTIO_CODE]))
        | unhandled =>
          exact Or.inl
            (by simp [emulate_io, h0, h1, hd, REQ_MMIO_CODE, REQ_PORTIO_CODE])
  refine ⟨fun hbad => emulate_io_invalid_type vcpu io_req hbad.1 hbad.2, hchar, ?_⟩
  intro hty hst
  rcases hchar hty with ⟨hs, _⟩ | ⟨hs, _⟩ | hex
  · rw [hst] at hs
    exact absurd hs (by decide)
  · rw [hst] at hs
    exact absurd hs (by decide)
  · exact hex

/-- Sample request of unrecognized type `7`. -/
def wit_bad_req : IoRequest :=
  { reqType := 7, addr := 0, size := 4, direction := IoDirection.WRITE,
    data := 0, state := ReqState.NONE }

/-- Witness for C7: a request of unrecognized type `7` on `wit_vcpu` yields
exactly `⟨-EINVAL, unchanged vCPU, unchanged request, no handler⟩`, and a
valid-type unmatched request yields a characterized outcome. -/
theorem emulate_io_result_characterization_witness :
    emulate_io wit_vcpu wit_bad_req = ⟨-EINVAL, wit_vcpu, wit_bad_req, []⟩ ∧
    (((emulate_io wit_vcpu_empty wit_pio_write_req).status = IOREQ_PENDING ∧
        (emulate_io wit_vcpu_empty wit_pio_write_req).invoked = []) ∨
     ((emulate_io wit_vcpu_empty wit_pio_write_req).status = - EIO ∧
        (emulate_io wit_vcpu_empty wit_pio_write_req).invoked = []) ∨
     (∃ h, (emulate_io wit_vcpu_empty wit_pio_write_req).invoked = [h])) :=
  ⟨(emulate_io_result_characterization wit_vcpu wit_bad_req).1
      ⟨by decide, by decide⟩,
   (emulate_io_result_characterization wit_vcpu_empty wit_pio_write_req).2.1
      (Or.inl rfl)⟩

/-- C8: post-processing a `COMPLETE` MMIO read request copies the completed
data into the destination register exactly once and consumes the slot back
to `NONE`; invoking post-processing again without a new submission — or on
any already-consumed (`NONE`-state) request — is a no-op, never a
re-application of stale data. -/
theorem emulate_io_post_complete_mmio_read_once :
    ∀ vcpu : AcrnVcpu,
      (vcpu.req.state = ReqState.COMPLETE →
       vcpu.req.reqType = REQ_MMIO_CODE →
       vcpu.req.direction = IoDirection.READ →
       ((emulate_io_post vcpu).reg = vcpu.req.data ∧
        (emulate_io_post vcpu).req.state = ReqState.NONE ∧
        emulate_io_post (emulate_io_post vcpu) = emulate_io_post vcpu)) ∧
      (vcpu.req.state = ReqState.NONE → emulate_io_post vcpu = vcpu) := by
  have hnoop : ∀ v : AcrnVcpu, v.req.state = ReqState.NONE → emulate_io_post v = v := by
    intro v hst
    rw [emulate_io_post, if_neg (by rw [hst]; exact fun hc => by cases hc)]
  intro vcpu
  constructor
  · intro hst hty hdir
    have heq : emulate_io_post vcpu =
        { vcpu with reg := vcpu.req.data,
                    req := { vcpu.req with state := ReqState.NONE } } := by
      rw [emulate_io_post, if_pos hst]
      simp [dm_emulate_mmio_post, emulate_mmio_post, hty, hdir]
    refine ⟨by rw [heq], by rw [heq], ?_⟩
    rw [heq]
    exact hnoop _ rfl
  · exact hnoop vcpu

/-- Sample vCPU whose slot holds a `COMPLETE` MMIO read with data `0xCD`. -/
def wit_vcpu_complete : AcrnVcpu :=
  { vm := wit_vm_empty,
    req := { reqType := REQ_MMIO_CODE, addr := 0x1000, size := 4,
             direction := IoDirection.READ, data := 0xCD,
             state := ReqState.COMPLETE },
    reg := 0 }

/-- Witness for C8: post-processing `wit_vcpu_complete` copies `0xCD` into
the register, consumes the slot to `NONE`, and a second invocation is a
no-op. -/
theorem emulate_io_post_complete_mmio_read_once_witness :
    (emulate_io_post wit_vcpu_complete).reg = 0xCD ∧
    (emulate_io_post wit_vcpu_complete).req.state = ReqState.NONE ∧
    emulate_io_post (emulate_io_post wit_vcpu_complete) =
      emulate_io_post wit_vcpu_complete :=
  (emulate_io_post_complete_mmio_read_once wit_vcpu_complete).1 rfl rfl rfl

/-- C9: the fixed PIO index space is a closed enumeration of eleven
pairwise-distinct consecutive indices `0` through `10` with upper bound
`EMUL_PIO_IDX_MAX = 11`; under the precondition
`pio_idx < EMUL_PIO_IDX_MAX` and with a full-size handler table, the
indexed slot access of `register_pio_emulation_handler` is in bounds — the
out-of-range branch is unreachable — and the registration takes effect at
exactly that slot, preserving the table's length. -/
theorem pio_index_space_closed_enum :
    ([PIC_MASTER_PIO_IDX, PIC_SLAVE_PIO_IDX, PIC_ELC_PIO_IDX, PCI_CFGADDR_PIO_IDX,
      PCI_CFGDATA_PIO_IDX, UART_PIO_IDX, PM1A_EVT_PIO_IDX, PM1A_CNT_PIO_IDX,
      PM1B_EVT_PIO_IDX, PM1B_CNT_PIO_IDX, RTC_PIO_IDX] =
        [0, 1, 2, 3, 4, 5, 6, 7, 8, 9, 10] ∧
     List.Nodup [PIC_MASTER_PIO_IDX, PIC_SLAVE_PIO_IDX, PIC_ELC_PIO_IDX,
       PCI_CFGADDR_PIO_IDX, PCI_CFGDATA_PIO_IDX, UART_PIO_IDX, PM1A_EVT_PIO_IDX,
       PM1A_CNT_PIO_IDX, PM1B_EVT_PIO_IDX, PM1B_CNT_PIO_IDX, RTC_PIO_IDX] ∧
     EMUL_PIO_IDX_MAX = 11) ∧
    (∀ (vm : AcrnVm) (pio_idx : Nat) (range : VmIoRange)
       (rfn : Nat → Nat → Int × Nat) (wfn : Nat → Nat → Nat → Int),
      pio_idx < EMUL_PIO_IDX_MAX →
      vm.pio_handlers.length = EMUL_PIO_IDX_MAX →
      (pio_idx < vm.pio_handlers.length ∧
       (register_pio_emulation_handler vm pio_idx range rfn wfn).pio_handlers[pio_idx]? =
         some (some { base := range.base, len := range.len,
                      io_read := rfn, io_write := wfn }) ∧
       (register_pio_emulation_handler vm pio_idx range rfn wfn).pio_handlers.length =
         vm.pio_handlers.length)) := by
  constructor
  · exact ⟨by decide, by decide, by decide⟩
  · intro vm pio_idx range rfn wfn hlt hlen
    have hlt' : pio_idx < vm.pio_handlers.length := by rw [hlen]; exact hlt
    refine ⟨hlt', ?_, ?_⟩
    · rw [register_pio_emulation_handler]
      rw [List.getElem?_set_self]
      simp [List.getElem?_eq_getElem, hlt']
    · rw [register_pio_emulation_handler]
      simp

/-- Witness for C9: binding the UART index `5` on the empty VM's full-size
table lands in bounds and takes effect at slot `5`, keeping length `11`. -/
theorem pio_index_space_closed_enum_witness :
    5 < wit_vm_empty.pio_handlers.length ∧
    (register_pio_emulation_handler wit_vm_empty 5 { base := 0x3F8, len := 8 }
      wit_pio_read wit_pio_write).pio_handlers[5]? =
      some (some { base := 0x3F8, len := 8, io_read := wit_pio_read,
                   io_write := wit_pio_write }) ∧
    (register_pio_emulation_handler wit_vm_empty 5 { base := 0x3F8, len := 8 }
      wit_pio_read wit_pio_write).pio_handlers.length =
      wit_vm_empty.pio_handlers.length :=
  pio_index_space_closed_enum.2 wit_vm_empty 5 { base := 0x3F8, len := 8 }
    wit_pio_read wit_pio_write (by decide) rfl

/-- C10: `emulate_mmio_post` leaves the request object it is given
unchanged (its parameter is `const` in the header and the vCPU's own
request slot is untouched, so no request field — type, address, size,
direction, data or state — is modified); the copy-back for a read targets
only the vCPU's register state, a write changes nothing at all, and the
reset of the slot back to `NONE` is performed by the generic completion
entry point `emulate_io_post`, not by `emulate_mmio_post`. -/
theorem emulate_mmio_post_frame :
    ∀ (vcpu : AcrnVcpu) (io_req : IoRequest),
      (emulate_mmio_post vcpu io_req).req = vcpu.req ∧
      (emulate_mmio_post vcpu io_req).vm = vcpu.vm ∧
      (emulate_mmio_post vcpu io_req).req.state = vcpu.req.state ∧
      (io_req.direction = IoDirection.READ →
        (emulate_mmio_post vcpu io_req).reg = io_req.data) ∧
      (io_req.direction = IoDirection.WRITE →
        emulate_mmio_post vcpu io_req = vcpu) ∧
      (vcpu.req.state = ReqState.COMPLETE →
        (emulate_io_post vcpu).req.state = ReqState.NONE) := by
  intro vcpu io_req
  refine ⟨?_, ?_, ?_, ?_, ?_, ?_⟩
  · rw [emulate_mmio_post]; split <;> rfl
  · rw [emulate_mmio_post]; split <;> rfl
  · rw [emulate_mmio_post]; split <;> rfl
  · intro h
    rw [emulate_mmio_post, if_pos h]
  · intro h
    rw [emulate_mmio_post, if_neg (by rw [h]; exact fun hc => by cases hc)]
  · intro h
    rw [emulate_io_post, if_pos h]

/-- Witness for C10: on `wit_vcpu_complete` and a concrete read request,
`emulate_mmio_post` keeps the request slot and VM intact, copies the data
into the register, and `emulate_io_post` — not `emulate_mmio_post` — resets
the `COMPLETE` slot to `NONE`. -/
theorem emulate_mmio_post_frame_witness :
    (emulate_mmio_post wit_vcpu_complete wit_mmio_read_req).req =
      wit_vcpu_complete.req ∧
    (emulate_mmio_post wit_vcpu_complete wit_mmio_read_req).reg =
      wit_mmio_read_req.data ∧
    (emulate_io_post wit_vcpu_complete).req.state = ReqState.NONE := by
  have h := emulate_mmio_post_frame wit_vcpu_complete wit_mmio_read_req
  exact ⟨h.1, h.2.2.2.1 rfl, h.2.2.2.2.2 rfl⟩

end AcrnIoEmul
